import Mathlib

/-!
Shallow embedding of the peer address metadata core of `zebra-network`
(`src/zebra-network/src/meta_addr.rs` and `src/zebra-network/src/constants.rs`).

Machine integers are modelled as `Nat`:
- `DateTime32` values are seconds since the epoch (`u32` in the source),
- `Instant` values are points of the monotonic clock (opaque, ordered),
- `PeerServices` is the raw `u64` bit pattern,
- IP addresses are octet lists (4 octets for v4, 16 for v6).

The source reads the ambient clocks (`DateTime32::now()`, `Instant::now()`)
inside the change projections; the embedding threads the two clock readings
(`now` for the wall clock, `inst` for the monotonic clock) as explicit
arguments at exactly the places the source calls the clock.

Rust panics (`expect`, `assert_eq`) are modelled as follows: functions whose
only panic is an `expect` on a missing value return `Option` with `none` for
the panic; the `assert_eq` on addresses in `apply_to_meta_addr` is a
precondition, stated as a hypothesis of every theorem about it.
-/

/-- Peer connection state, from `PeerAddrState` in `meta_addr.rs`. -/
inductive PeerAddrState
  | Responded
  | NeverAttemptedGossiped
  | NeverAttemptedAlternate
  | Failed
  | AttemptPending
deriving DecidableEq

open PeerAddrState

/-- Transcription of `PeerAddrState::is_never_attempted`. -/
def PeerAddrState.is_never_attempted : PeerAddrState → Bool
  | NeverAttemptedGossiped | NeverAttemptedAlternate => true
  | AttemptPending | Responded | Failed => false

/-- Transcription of `impl Ord for PeerAddrState` (`fn cmp`): the source
matches pairs in this order, with the five equal pairs first. -/
def PeerAddrState.cmp : PeerAddrState → PeerAddrState → Ordering
  | Responded, Responded
  | Failed, Failed
  | NeverAttemptedGossiped, NeverAttemptedGossiped
  | NeverAttemptedAlternate, NeverAttemptedAlternate
  | AttemptPending, AttemptPending => .eq
  | Responded, _ => .lt
  | _, Responded => .gt
  | NeverAttemptedGossiped, _ => .lt
  | _, NeverAttemptedGossiped => .gt
  | NeverAttemptedAlternate, _ => .lt
  | _, NeverAttemptedAlternate => .gt
  | Failed, _ => .lt
  | _, Failed => .gt

/-- IP address: v4 carries 4 octets, v6 carries 16 octets. -/
inductive IpAddr
  | v4 (octets : List Nat)
  | v6 (octets : List Nat)
deriving DecidableEq

/-- Modelled from the spec: the 12-byte prefix marking a v4-mapped-in-v6
address (`::ffff:a.b.c.d`). -/
def v4MappedPrefix : List Nat := [0, 0, 0, 0, 0, 0, 0, 0, 0, 0, 255, 255]

/-- Modelled from the spec: endpoint canonicalization collapses
v4-mapped-in-v6 addresses to v4 and leaves every other address unchanged
(the `canonical_socket_addr` helper lives in `zebra_chain`, outside `src/`). -/
def canonicalIp : IpAddr → IpAddr
  | .v4 o => .v4 o
  | .v6 o => if o.take 12 = v4MappedPrefix then .v4 (o.drop 12) else .v6 o

/-- Determines whether an IP address is the unspecified address
(all-zero octets), as `Ipv4Addr::is_unspecified` / `Ipv6Addr::is_unspecified`. -/
def IpAddr.is_unspecified : IpAddr → Bool
  | .v4 o => o = [0, 0, 0, 0]
  | .v6 o => o = List.replicate 16 0

/-- Socket address: an IP and a port (`u16` in the source). -/
structure SocketAddr where
  ip : IpAddr
  port : Nat
deriving DecidableEq

/-- Modelled from the spec: `canonical_socket_addr` normalizes the IP part
of an endpoint and keeps the port. -/
def canonical_socket_addr (addr : SocketAddr) : SocketAddr :=
  { addr with ip := canonicalIp addr.ip }

/-- Transcription of the `MetaAddr` struct: canonical socket address,
advertised services (`u64` bit pattern), and the four optional timestamps. -/
structure MetaAddr where
  addr : SocketAddr
  services : Nat
  untrusted_last_seen : Option Nat
  last_response : Option Nat
  last_attempt : Option Nat
  last_failure : Option Nat
  last_connection_state : PeerAddrState
deriving DecidableEq

/-- Transcription of the `MetaAddrChange` enum. -/
inductive MetaAddrChange
  | NewGossiped (addr : SocketAddr) (untrusted_services : Nat)
      (untrusted_last_seen : Nat)
  | NewAlternate (addr : SocketAddr) (untrusted_services : Nat)
  | NewLocal (addr : SocketAddr)
  | UpdateAttempt (addr : SocketAddr)
  | UpdateResponded (addr : SocketAddr) (services : Nat)
  | UpdateFailed (addr : SocketAddr) (services : Option Nat)
deriving DecidableEq

open MetaAddrChange

/-- Transcription of `MetaAddrChange::addr`. -/
def MetaAddrChange.addr : MetaAddrChange → SocketAddr
  | NewGossiped a _ _ => a
  | NewAlternate a _ => a
  | NewLocal a => a
  | UpdateAttempt a => a
  | UpdateResponded a _ => a
  | UpdateFailed a _ => a

/-- NODE_NETWORK is bit 0 of the services bit pattern. -/
def NODE_NETWORK : Nat := 1

/-- Transcription of `MetaAddrChange::untrusted_services`. -/
def MetaAddrChange.untrusted_services : MetaAddrChange → Option Nat
  | NewGossiped _ s _ => some s
  | NewAlternate _ s => some s
  | NewLocal _ => some NODE_NETWORK
  | UpdateAttempt _ => none
  | UpdateResponded _ s => some s
  | UpdateFailed _ s => s

/-- Transcription of `MetaAddrChange::untrusted_last_seen`; the source calls
`DateTime32::now()` in the `NewLocal` arm, threaded here as `now`. -/
def MetaAddrChange.untrusted_last_seen (c : MetaAddrChange) (now : Nat) :
    Option Nat :=
  match c with
  | NewGossiped _ _ t => some t
  | NewAlternate _ _ => none
  | NewLocal _ => some now
  | UpdateAttempt _ => none
  | UpdateResponded _ _ => none
  | UpdateFailed _ _ => none

/-- Transcription of `MetaAddrChange::last_attempt`; the source calls
`Instant::now()` in the `UpdateAttempt` arm, threaded here as `inst`. -/
def MetaAddrChange.last_attempt (c : MetaAddrChange) (inst : Nat) :
    Option Nat :=
  match c with
  | NewGossiped _ _ _ => none
  | NewAlternate _ _ => none
  | NewLocal _ => none
  | UpdateAttempt _ => some inst
  | UpdateResponded _ _ => none
  | UpdateFailed _ _ => none

/-- Transcription of `MetaAddrChange::last_response`; the source calls
`DateTime32::now()` in the `UpdateResponded` arm, threaded here as `now`. -/
def MetaAddrChange.last_response (c : MetaAddrChange) (now : Nat) :
    Option Nat :=
  match c with
  | NewGossiped _ _ _ => none
  | NewAlternate _ _ => none
  | NewLocal _ => none
  | UpdateAttempt _ => none
  | UpdateResponded _ _ => some now
  | UpdateFailed _ _ => none

/-- Transcription of `MetaAddrChange::last_failure`; the source calls
`Instant::now()` in the `UpdateFailed` arm, threaded here as `inst`. -/
def MetaAddrChange.last_failure (c : MetaAddrChange) (inst : Nat) :
    Option Nat :=
  match c with
  | NewGossiped _ _ _ => none
  | NewAlternate _ _ => none
  | NewLocal _ => none
  | UpdateAttempt _ => none
  | UpdateResponded _ _ => none
  | UpdateFailed _ _ => some inst

/-- Transcription of `MetaAddrChange::peer_addr_state`. -/
def MetaAddrChange.peer_addr_state : MetaAddrChange → PeerAddrState
  | NewGossiped _ _ _ => NeverAttemptedGossiped
  | NewAlternate _ _ => NeverAttemptedAlternate
  | NewLocal _ => NeverAttemptedGossiped
  | UpdateAttempt _ => AttemptPending
  | UpdateResponded _ _ => Responded
  | UpdateFailed _ _ => Failed

/-- Rust `Option::or_else` on optional timestamps: keep the first value when
present, otherwise fall back to the second. -/
def optOr (a b : Option Nat) : Option Nat :=
  match a with
  | some x => some x
  | none => b

/-- Rust `Option::max` on optional timestamps with the derived `Ord` on
`Option` (`None` below every `Some`, `Some` ordered by value). -/
def optMax (a b : Option Nat) : Option Nat :=
  match a, b with
  | none, b => b
  | some x, none => some x
  | some x, some y => some (max x y)

/-- Transcription of `MetaAddrChange::into_new_meta_addr`. For the `New`
variants the source unwraps `untrusted_services()` with `expect`; that
unwrap never fails because the `New` variants always carry services, so the
embedding uses `getD 0` in its place. -/
def MetaAddrChange.into_new_meta_addr (c : MetaAddrChange) (now : Nat) :
    Option MetaAddr :=
  match c with
  | NewGossiped _ _ _ | NewAlternate _ _ | NewLocal _ =>
    some
      { addr := c.addr
        services := c.untrusted_services.getD 0
        untrusted_last_seen := c.untrusted_last_seen now
        last_response := none
        last_attempt := none
        last_failure := none
        last_connection_state := c.peer_addr_state }
  | UpdateAttempt _ | UpdateResponded _ _ | UpdateFailed _ _ => none

/-- Transcription of `MetaAddrChange::apply_to_meta_addr`. The source
asserts `previous.addr == self.addr()` when `previous` is present; that
assertion is a precondition, carried as a hypothesis by the theorems below. -/
def MetaAddrChange.apply_to_meta_addr (c : MetaAddrChange)
    (previous : Option MetaAddr) (now inst : Nat) : Option MetaAddr :=
  match previous with
  | some previous =>
    let previous_has_been_attempted :=
      ! previous.last_connection_state.is_never_attempted
    let change_to_never_attempted :=
      ((c.into_new_meta_addr now).map
        (fun meta_addr => meta_addr.last_connection_state.is_never_attempted)).getD
        false
    if change_to_never_attempted then
      if previous_has_been_attempted then
        none
      else
        some
          { addr := c.addr
            services := previous.services
            untrusted_last_seen :=
              optOr previous.untrusted_last_seen (c.untrusted_last_seen now)
            last_response := none
            last_attempt := none
            last_failure := none
            last_connection_state := c.peer_addr_state }
    else
      some
        { addr := c.addr
          services := c.untrusted_services.getD previous.services
          untrusted_last_seen := previous.untrusted_last_seen
          last_response := optMax (c.last_response now) previous.last_response
          last_attempt := optMax (c.last_attempt inst) previous.last_attempt
          last_failure := optMax (c.last_failure inst) previous.last_failure
          last_connection_state := c.peer_addr_state }
  | none => c.into_new_meta_addr now

/-- Transcription of `MetaAddr::new_gossiped_meta_addr`. -/
def MetaAddr.new_gossiped_meta_addr (addr : SocketAddr)
    (untrusted_services untrusted_last_seen : Nat) : MetaAddr :=
  { addr := canonical_socket_addr addr
    services := untrusted_services
    untrusted_last_seen := some untrusted_last_seen
    last_response := none
    last_attempt := none
    last_failure := none
    last_connection_state := NeverAttemptedGossiped }

/-- Transcription of `MetaAddr::new_gossiped_change`. The source unwraps
`untrusted_last_seen` with `expect("unexpected missing last seen")`;
`none` here models that panic. -/
def MetaAddr.new_gossiped_change (m : MetaAddr) : Option MetaAddrChange :=
  match m.untrusted_last_seen with
  | none => none
  | some t => some (NewGossiped (canonical_socket_addr m.addr) m.services t)

/-- Transcription of `MetaAddr::last_seen`: `last_response` or else the
untrusted last seen time. -/
def MetaAddr.last_seen (m : MetaAddr) : Option Nat :=
  optOr m.last_response m.untrusted_last_seen

/-- Transcription of `MetaAddr::address_is_valid_for_outbound`. -/
def MetaAddr.address_is_valid_for_outbound (m : MetaAddr) : Bool :=
  ! m.addr.ip.is_unspecified && m.addr.port != 0

/-- Transcription of `MetaAddr::last_known_info_is_valid_for_outbound`:
services contain NODE_NETWORK (bit 0) and the address is valid. -/
def MetaAddr.last_known_info_is_valid_for_outbound (m : MetaAddr) : Bool :=
  m.services.testBit 0 && m.address_is_valid_for_outbound

/-- Transcription of `TIMESTAMP_TRUNCATION_SECONDS` from `constants.rs`. -/
def TIMESTAMP_TRUNCATION_SECONDS : Nat := 30 * 60

/-- Transcription of `MetaAddr::sanitize`. The `checked_sub` in the source
never fails because `rem_euclid` returns a value at most the timestamp;
on `Nat` the subtraction is exact for the same reason. -/
def MetaAddr.sanitize (m : MetaAddr) : Option MetaAddr :=
  if ! m.last_known_info_is_valid_for_outbound then
    none
  else
    match m.last_seen with
    | none => none
    | some last_seen =>
      let remainder := last_seen % TIMESTAMP_TRUNCATION_SECONDS
      some
        { addr := canonical_socket_addr m.addr
          services := m.services
          untrusted_last_seen := some (last_seen - remainder)
          last_response := none
          last_attempt := none
          last_failure := none
          last_connection_state := NeverAttemptedGossiped }

/-- Little-endian byte encoding of `n` in `w` bytes, as `byteorder`'s
`write_u32::<LittleEndian>` / `write_u64::<LittleEndian>` produce. -/
def leBytes : Nat → Nat → List Nat
  | 0, _ => []
  | w + 1, n => n % 256 :: leBytes w (n / 256)

/-- Little-endian byte decoding, as `read_u32` / `read_u64` consume. -/
def leDecode : List Nat → Nat
  | [] => 0
  | b :: rest => b + 256 * leDecode rest

/-- Big-endian byte encoding (ports are written big-endian on the wire). -/
def beBytes (w n : Nat) : List Nat := (leBytes w n).reverse

/-- Big-endian byte decoding. -/
def beDecode (l : List Nat) : Nat := l.foldl (fun acc b => acc * 256 + b) 0

/-- Modelled from the spec: the wire form of an IP is the 16-byte IPv6
encoding, with v4 addresses written as v4-mapped-in-v6 (the
`write_socket_addr` helper lives in `zebra_chain`, outside `src/`). -/
def ipWireBytes : IpAddr → List Nat
  | .v4 o => v4MappedPrefix ++ o
  | .v6 o => o

/-- Modelled from the spec: `PeerServices::from_bits_truncate` keeps the
64-bit bit pattern verbatim, truncating only bits beyond the bitset width
(the `PeerServices` bitset lives outside `src/`; the spec says unknown bits
are preserved through deserialization). -/
def from_bits_truncate (n : Nat) : Nat := n % 2 ^ 64

/-- Transcription of `impl ZcashSerialize for MetaAddr`: 4-byte LE last-seen
time, 8-byte LE services, 16-byte IP, 2-byte BE port. The source unwraps
`last_seen()` with `expect`; `none` here models that panic. -/
def MetaAddr.zcash_serialize (m : MetaAddr) : Option (List Nat) :=
  match m.last_seen with
  | none => none
  | some t =>
    some (leBytes 4 t ++ leBytes 8 m.services ++ ipWireBytes m.addr.ip ++
      beBytes 2 m.addr.port)

/-- Transcription of `impl ZcashDeserialize for MetaAddr`: read the 4-byte
last-seen time, the 8-byte services (through `from_bits_truncate`), the
16-byte IP and 2-byte port, and build the record with
`new_gossiped_meta_addr` (which canonicalizes the address). A buffer
shorter than 30 bytes is a read error. -/
def MetaAddr.zcash_deserialize (bytes : List Nat) : Option MetaAddr :=
  if bytes.length < 30 then
    none
  else
    let untrusted_last_seen := leDecode (bytes.take 4)
    let untrusted_services := from_bits_truncate (leDecode ((bytes.drop 4).take 8))
    let ip := IpAddr.v6 ((bytes.drop 12).take 16)
    let port := beDecode ((bytes.drop 28).take 2)
    some (MetaAddr.new_gossiped_meta_addr ⟨ip, port⟩ untrusted_services
      untrusted_last_seen)

/-- Rust derived `Ord` on `Option<T>`: `None` below every `Some`, `Some`
compared by value. -/
def optCmp (a b : Option Nat) : Ordering :=
  match a, b with
  | none, none => .eq
  | none, some _ => .lt
  | some _, none => .gt
  | some x, some y => compare x y

/-- Lexicographic comparison of octet lists, as Rust array/slice `Ord`. -/
def listCmp : List Nat → List Nat → Ordering
  | [], [] => .eq
  | [], _ :: _ => .lt
  | _ :: _, [] => .gt
  | x :: xs, y :: ys => (compare x y).then (listCmp xs ys)

/-- Transcription of the IP tie-breaker in `impl Ord for MetaAddr`: within a
family compare octets, and every v4 sorts before every v6. -/
def ipCmp : IpAddr → IpAddr → Ordering
  | .v4 a, .v4 b => listCmp a b
  | .v6 a, .v6 b => listCmp a b
  | .v4 _, .v6 _ => .lt
  | .v6 _, .v4 _ => .gt

/-- Transcription of `impl Ord for MetaAddr` (`fn cmp`): state, then older
attempt, older failure, older response, newer untrusted last seen
(reversed), larger services, then the IP and port tie-breakers. -/
def MetaAddr.cmp (a b : MetaAddr) : Ordering :=
  let more_reliable_state :=
    a.last_connection_state.cmp b.last_connection_state
  let older_attempt := optCmp a.last_attempt b.last_attempt
  let older_failure := optCmp a.last_failure b.last_failure
  let older_response := optCmp a.last_response b.last_response
  let newer_untrusted_last_seen :=
    (optCmp a.untrusted_last_seen b.untrusted_last_seen).swap
  let larger_services := compare a.services b.services
  let ip_tie_breaker := ipCmp a.addr.ip b.addr.ip
  let port_tie_breaker := compare a.addr.port b.addr.port
  ((((((more_reliable_state.then older_attempt).then
    older_failure).then older_response).then
    newer_untrusted_last_seen).then larger_services).then
    ip_tie_breaker).then port_tie_breaker

/-- Lawfulness of a comparator: symmetric under swap, transitive on strict
comparisons, and congruent on the left across equal elements. These are the
properties a Rust `Ord` implementation must satisfy. -/
structure LawfulCmp {α : Type} (f : α → α → Ordering) : Prop where
  symm : ∀ x y, f x y = (f y x).swap
  lt_trans : ∀ x y z, f x y = .lt → f y z = .lt → f x z = .lt
  eq_left : ∀ x y z, f x y = .eq → f x z = f y z

theorem LawfulCmp.refl {α : Type} {f : α → α → Ordering} (hf : LawfulCmp f)
    (x : α) : f x x = .eq := by
  have h := hf.symm x x
  cases hx : f x x <;> rw [hx] at h <;> first | rfl | exact absurd h (by decide)

theorem LawfulCmp.eq_right {α : Type} {f : α → α → Ordering} (hf : LawfulCmp f)
    {x y : α} (z : α) (h : f x y = .eq) : f z x = f z y := by
  have hx := hf.symm z x
  have hy := hf.symm z y
  rw [hx, hy, hf.eq_left x y z h]

theorem LawfulCmp.gt_trans {α : Type} {f : α → α → Ordering} (hf : LawfulCmp f)
    {x y z : α} (h1 : f x y = .gt) (h2 : f y z = .gt) : f x z = .gt := by
  have hxy := hf.symm y x
  have hyz := hf.symm z y
  have hxz := hf.symm x z
  rw [h1] at hxy
  rw [h2] at hyz
  have : f z x = .lt := hf.lt_trans z y x (by cases hzy : f z y <;> rw [hzy] at hyz <;>
    first | rfl | exact absurd hyz (by decide)) (by cases hyx : f y x <;> rw [hyx] at hxy <;>
    first | rfl | exact absurd hxy (by decide))
  rw [hxz, this]; rfl

/-- Lexicographic composition of two comparators, mirroring `Ordering::then`. -/
def thenCmp {α : Type} (f g : α → α → Ordering) (x y : α) : Ordering :=
  (f x y).then (g x y)

theorem LawfulCmp.thenCmp {α : Type} {f g : α → α → Ordering}
    (hf : LawfulCmp f) (hg : LawfulCmp g) : LawfulCmp (thenCmp f g) where
  symm x y := by
    show (f x y).then (g x y) = ((f y x).then (g y x)).swap
    rw [Ordering.swap_then, ← hf.symm, ← hg.symm]
  lt_trans x y z h1 h2 := by
    show (f x z).then (g x z) = .lt
    rcases Ordering.then_eq_lt.1 h1 with hfxy | ⟨hfxy, hgxy⟩ <;>
      rcases Ordering.then_eq_lt.1 h2 with hfyz | ⟨hfyz, hgyz⟩
    · exact Ordering.then_eq_lt.2 (Or.inl (hf.lt_trans x y z hfxy hfyz))
    · exact Ordering.then_eq_lt.2 (Or.inl ((hf.eq_right x hfyz) ▸ hfxy))
    · exact Ordering.then_eq_lt.2 (Or.inl ((hf.eq_left x y z hfxy).trans hfyz))
    · refine Ordering.then_eq_lt.2 (Or.inr ⟨(hf.eq_left x y z hfxy).trans hfyz, ?_⟩)
      exact hg.lt_trans x y z hgxy hgyz
  eq_left x y z h := by
    rcases Ordering.then_eq_eq.1 h with ⟨hfe, hge⟩
    show (f x z).then (g x z) = (f y z).then (g y z)
    rw [hf.eq_left x y z hfe, hg.eq_left x y z hge]

theorem lawful_natCompare : LawfulCmp (fun a b : Nat => compare a b) where
  symm x y := (Nat.compare_swap y x).symm
  lt_trans x y z h1 h2 := by
    rw [Nat.compare_eq_lt] at *
    omega
  eq_left x y z h := by
    rw [Nat.compare_eq_eq] at h
    rw [h]

theorem lawful_ofKey {α β : Type} {base : β → β → Ordering} (k : α → β)
    (hb : LawfulCmp base) : LawfulCmp (fun x y => base (k x) (k y)) where
  symm x y := hb.symm (k x) (k y)
  lt_trans x y z h1 h2 := hb.lt_trans (k x) (k y) (k z) h1 h2
  eq_left x y z h := hb.eq_left (k x) (k y) (k z) h

theorem lawful_swap {α : Type} {f : α → α → Ordering} (hf : LawfulCmp f) :
    LawfulCmp (fun x y => (f x y).swap) where
  symm x y := by
    show (f x y).swap = ((f y x).swap).swap
    rw [Ordering.swap_swap, hf.symm x y, Ordering.swap_swap]
  lt_trans x y z h1 h2 := by
    have g1 : f x y = .gt := by
      cases h : f x y <;> rw [h] at h1 <;> first | rfl | exact absurd h1 (by decide)
    have g2 : f y z = .gt := by
      cases h : f y z <;> rw [h] at h2 <;> first | rfl | exact absurd h2 (by decide)
    rw [hf.gt_trans g1 g2]; rfl
  eq_left x y z h := by
    have he : f x y = .eq := by
      cases hx : f x y <;> rw [hx] at h <;> first | rfl | exact absurd h (by decide)
    rw [hf.eq_left x y z he]

/-- Rank of an optional timestamp in the derived `Option` order: `None`
below every `Some`. -/
def optRank (o : Option Nat) : Nat := o.elim 0 (· + 1)

theorem optCmp_eq_compare (a b : Option Nat) :
    optCmp a b = compare (optRank a) (optRank b) := by
  cases a <;> cases b <;> simp only [optCmp, optRank, Option.elim]
  · rw [Nat.compare_eq_eq.2 rfl]
  · rename_i x
    rw [Nat.compare_eq_lt.2 (by omega)]
  · rename_i x
    rw [Nat.compare_eq_gt.2 (by omega)]
  · rename_i x y
    rcases Nat.lt_trichotomy x y with h | h | h
    · rw [Nat.compare_eq_lt.2 h, Nat.compare_eq_lt.2 (by omega)]
    · rw [h, Nat.compare_eq_eq.2 rfl, Nat.compare_eq_eq.2 rfl]
    · rw [Nat.compare_eq_gt.2 h, Nat.compare_eq_gt.2 (by omega)]

theorem lawful_congr {α : Type} {f g : α → α → Ordering}
    (h : ∀ x y, f x y = g x y) (hg : LawfulCmp g) : LawfulCmp f where
  symm x y := by rw [h, h, hg.symm]
  lt_trans x y z h1 h2 := by
    simp only [h] at *
    exact hg.lt_trans x y z h1 h2
  eq_left x y z he := by
    simp only [h] at *
    exact hg.eq_left x y z he

theorem lawful_optCmp : LawfulCmp optCmp :=
  lawful_congr optCmp_eq_compare (lawful_ofKey optRank lawful_natCompare)

theorem optCmp_eq_iff (a b : Option Nat) : optCmp a b = .eq ↔ a = b := by
  cases a <;> cases b <;> simp [optCmp, Nat.compare_eq_eq]

theorem listCmp_eq_iff (a b : List Nat) : listCmp a b = .eq ↔ a = b := by
  induction a generalizing b with
  | nil => cases b <;> simp [listCmp]
  | cons x xs ih =>
    cases b with
    | nil => simp [listCmp]
    | cons y ys => simp [listCmp, Ordering.then_eq_eq, Nat.compare_eq_eq, ih]

theorem lawful_listCmp : LawfulCmp listCmp where
  symm x y := by
    induction x generalizing y with
    | nil => cases y <;> rfl
    | cons a xs ih =>
      cases y with
      | nil => rfl
      | cons b ys =>
        show (compare a b).then (listCmp xs ys) = ((compare b a).then (listCmp ys xs)).swap
        rw [Ordering.swap_then, ← Nat.compare_swap, ← ih]
  lt_trans x y z h1 h2 := by
    induction x generalizing y z with
    | nil =>
      cases y with
      | nil => simp [listCmp] at h1
      | cons b ys =>
        cases z with
        | nil => simp [listCmp] at h2
        | cons c zs => rfl
    | cons a xs ih =>
      cases y with
      | nil => simp [listCmp] at h1
      | cons b ys =>
        cases z with
        | nil => simp [listCmp] at h2
        | cons c zs =>
          show (compare a c).then (listCmp xs zs) = .lt
          replace h1 : (compare a b).then (listCmp xs ys) = .lt := h1
          replace h2 : (compare b c).then (listCmp ys zs) = .lt := h2
          rcases Ordering.then_eq_lt.1 h1 with hab | ⟨hab, hxy⟩ <;>
            rcases Ordering.then_eq_lt.1 h2 with hbc | ⟨hbc, hyz⟩
          · rw [Nat.compare_eq_lt] at hab hbc
            exact Ordering.then_eq_lt.2 (Or.inl (Nat.compare_eq_lt.2 (by omega)))
          · rw [Nat.compare_eq_eq] at hbc
            exact Ordering.then_eq_lt.2 (Or.inl (hbc ▸ hab))
          · rw [Nat.compare_eq_eq] at hab
            exact Ordering.then_eq_lt.2 (Or.inl (hab ▸ hbc))
          · rw [Nat.compare_eq_eq] at hab hbc
            refine Ordering.then_eq_lt.2 (Or.inr ⟨Nat.compare_eq_eq.2 (hab.trans hbc), ?_⟩)
            exact ih ys zs hxy hyz
  eq_left x y z h := by
    rw [listCmp_eq_iff] at h
    rw [h]

theorem ipCmp_eq_iff (a b : IpAddr) : ipCmp a b = .eq ↔ a = b := by
  cases a <;> cases b <;> simp [ipCmp, listCmp_eq_iff]

theorem lawful_ipCmp : LawfulCmp ipCmp where
  symm x y := by
    cases x <;> cases y <;> simp only [ipCmp, Ordering.swap] <;>
      first | rfl | exact lawful_listCmp.symm _ _
  lt_trans x y z h1 h2 := by
    cases x <;> cases y <;> cases z <;>
      simp only [ipCmp] at * <;>
      first
        | rfl
        | exact absurd h1 (by decide)
        | exact absurd h2 (by decide)
        | exact lawful_listCmp.lt_trans _ _ _ h1 h2
  eq_left x y z h := by
    rw [ipCmp_eq_iff] at h
    rw [h]

/-- Rank of a peer state in the claimed comparison order:
`Responded < NeverAttemptedGossiped < NeverAttemptedAlternate < Failed <
AttemptPending`. -/
def stateRank : PeerAddrState → Nat
  | Responded => 0
  | NeverAttemptedGossiped => 1
  | NeverAttemptedAlternate => 2
  | Failed => 3
  | AttemptPending => 4

theorem stateCmp_eq_rank :
    ∀ a b : PeerAddrState, PeerAddrState.cmp a b = compare (stateRank a) (stateRank b) := by
  intro a b
  cases a <;> cases b <;> decide

theorem lawful_stateCmp : LawfulCmp PeerAddrState.cmp :=
  lawful_congr stateCmp_eq_rank (lawful_ofKey stateRank lawful_natCompare)

theorem stateCmp_eq_iff (a b : PeerAddrState) :
    PeerAddrState.cmp a b = .eq ↔ a = b := by
  cases a <;> cases b <;> decide

theorem swap_eq_eq (o : Ordering) : o.swap = .eq ↔ o = .eq := by
  cases o <;> decide

theorem lawful_metaAddrCmp : LawfulCmp MetaAddr.cmp := by
  have h :=
    (((((((lawful_ofKey (fun m : MetaAddr => m.last_connection_state)
      lawful_stateCmp).thenCmp
      (lawful_ofKey (fun m : MetaAddr => m.last_attempt) lawful_optCmp)).thenCmp
      (lawful_ofKey (fun m : MetaAddr => m.last_failure) lawful_optCmp)).thenCmp
      (lawful_ofKey (fun m : MetaAddr => m.last_response) lawful_optCmp)).thenCmp
      (lawful_ofKey (fun m : MetaAddr => m.untrusted_last_seen)
        (lawful_swap lawful_optCmp))).thenCmp
      (lawful_ofKey (fun m : MetaAddr => m.services) lawful_natCompare)).thenCmp
      (lawful_ofKey (fun m : MetaAddr => m.addr.ip) lawful_ipCmp)).thenCmp
      (lawful_ofKey (fun m : MetaAddr => m.addr.port) lawful_natCompare)
  exact lawful_congr (fun a b => rfl) h

theorem metaAddrCmp_eq_iff (a b : MetaAddr) : MetaAddr.cmp a b = .eq ↔ a = b := by
  constructor
  · intro h
    rcases a with ⟨⟨aip, aport⟩, as, au, ar, aat, af, ast⟩
    rcases b with ⟨⟨bip, bport⟩, bs, bu, br, bat, bf, bst⟩
    simp only [MetaAddr.cmp, Ordering.then_eq_eq, stateCmp_eq_iff, optCmp_eq_iff,
      swap_eq_eq, ipCmp_eq_iff, Nat.compare_eq_eq] at h
    obtain ⟨⟨⟨⟨⟨⟨⟨h1, h2⟩, h3⟩, h4⟩, h5⟩, h6⟩, h7⟩, h8⟩ := h
    subst h1 h2 h3 h4 h5 h6 h7 h8
    rfl
  · intro h
    subst h
    exact lawful_metaAddrCmp.refl a

/-- Comparison of two records as the claim describes it: state rank in the
order Responded, NeverAttemptedGossiped, NeverAttemptedAlternate, Failed,
AttemptPending; then last_attempt, last_failure, last_response ascending
with None before Some; then untrusted_last_seen descending; then services
numerically; then IP (v4 before v6, octet-wise within a family); then port. -/
def specMetaAddrCmp (a b : MetaAddr) : Ordering :=
  (compare (stateRank a.last_connection_state)
      (stateRank b.last_connection_state)).then
    ((optCmp a.last_attempt b.last_attempt).then
      ((optCmp a.last_failure b.last_failure).then
        ((optCmp a.last_response b.last_response).then
          (((optCmp a.untrusted_last_seen b.untrusted_last_seen).swap).then
            ((compare a.services b.services).then
              ((ipCmp a.addr.ip b.addr.ip).then
                (compare a.addr.port b.addr.port)))))))

theorem then_assoc (a b c : Ordering) : (a.then b).then c = a.then (b.then c) := by
  cases a <;> rfl

/-- C6: the comparison of two records proceeds through state (Responded <
NeverAttemptedGossiped < NeverAttemptedAlternate < Failed < AttemptPending),
then last_attempt, last_failure, last_response ascending with None before
Some, then untrusted_last_seen descending, then services ascending, then IP
(v4 before v6, octet-wise within a family), then port ascending — and the
comparison is a total order: reflexive, symmetric under swap (hence total),
antisymmetric, and transitive, with comparing Equal exactly characterizing
record equality. -/
theorem C6_metaAddr_cmp_total_order :
    ∀ a b c : MetaAddr,
      MetaAddr.cmp a b = specMetaAddrCmp a b ∧
      MetaAddr.cmp a a = .eq ∧
      MetaAddr.cmp a b = (MetaAddr.cmp b a).swap ∧
      (MetaAddr.cmp a b = .eq ↔ a = b) ∧
      (MetaAddr.cmp a b ≠ .gt → MetaAddr.cmp b a ≠ .gt → a = b) ∧
      (MetaAddr.cmp a b = .lt → MetaAddr.cmp b c = .lt → MetaAddr.cmp a c = .lt) := by
  intro a b c
  refine ⟨?_, lawful_metaAddrCmp.refl a, lawful_metaAddrCmp.symm a b,
    metaAddrCmp_eq_iff a b, ?_, lawful_metaAddrCmp.lt_trans a b c⟩
  · simp only [MetaAddr.cmp, specMetaAddrCmp, stateCmp_eq_rank, then_assoc]
  · intro h1 h2
    cases hab : MetaAddr.cmp a b with
    | lt =>
      have hs := lawful_metaAddrCmp.symm a b
      rw [hab] at hs
      have hgt : MetaAddr.cmp b a = .gt := by
        cases hba : MetaAddr.cmp b a <;> rw [hba] at hs <;>
          first | rfl | exact absurd hs (by decide)
      exact absurd hgt h2
    | eq => exact (metaAddrCmp_eq_iff a b).1 hab
    | gt => exact absurd hab h1

/-- C6 witness: the comparison theorem applied at concrete records,
discharging the transitivity hypotheses on three records that differ only
in their attempt times. -/
theorem C6_metaAddr_cmp_total_order_witness :
    MetaAddr.cmp
      { addr := ⟨IpAddr.v4 [192, 0, 2, 1], 8233⟩, services := 1,
        untrusted_last_seen := some 500, last_response := none,
        last_attempt := some 10, last_failure := none,
        last_connection_state := Responded }
      { addr := ⟨IpAddr.v4 [192, 0, 2, 3], 8233⟩, services := 1,
        untrusted_last_seen := some 500, last_response := none,
        last_attempt := some 30, last_failure := none,
        last_connection_state := Responded } = .lt :=
  (C6_metaAddr_cmp_total_order
      { addr := ⟨IpAddr.v4 [192, 0, 2, 1], 8233⟩, services := 1,
        untrusted_last_seen := some 500, last_response := none,
        last_attempt := some 10, last_failure := none,
        last_connection_state := Responded }
      { addr := ⟨IpAddr.v4 [192, 0, 2, 2], 8233⟩, services := 1,
        untrusted_last_seen := some 500, last_response := none,
        last_attempt := some 20, last_failure := none,
        last_connection_state := Responded }
      { addr := ⟨IpAddr.v4 [192, 0, 2, 3], 8233⟩, services := 1,
        untrusted_last_seen := some 500, last_response := none,
        last_attempt := some 30, last_failure := none,
        last_connection_state := Responded }).2.2.2.2.2
    (by decide) (by decide)

/-- Determines whether a change is one of the `New` variants
(NewGossiped, NewAlternate, NewLocal). -/
def MetaAddrChange.is_new_change : MetaAddrChange → Bool
  | NewGossiped _ _ _ | NewAlternate _ _ | NewLocal _ => true
  | UpdateAttempt _ | UpdateResponded _ _ | UpdateFailed _ _ => false

/-- Determines whether a change is one of the `Update` variants
(UpdateAttempt, UpdateResponded, UpdateFailed). -/
def MetaAddrChange.is_update_change : MetaAddrChange → Bool
  | NewGossiped _ _ _ | NewAlternate _ _ | NewLocal _ => false
  | UpdateAttempt _ | UpdateResponded _ _ | UpdateFailed _ _ => true

/-- Rust derived `Ord` `≤` on `Option` timestamps: `None` below every
`Some`, `Some` ordered by value. -/
def optLe (a b : Option Nat) : Bool :=
  match a, b with
  | none, _ => true
  | some _, none => false
  | some x, some y => x ≤ y

theorem optLe_refl (a : Option Nat) : optLe a a = true := by
  cases a <;> simp [optLe]

theorem optLe_optMax (a b : Option Nat) : optLe b (optMax a b) = true := by
  cases a <;> cases b <;> simp [optLe, optMax]

theorem optMax_none_left (b : Option Nat) : optMax none b = b := rfl

theorem is_never_attempted_of_state :
    NeverAttemptedGossiped.is_never_attempted = true ∧
    NeverAttemptedAlternate.is_never_attempted = true ∧
    Responded.is_never_attempted = false ∧
    Failed.is_never_attempted = false ∧
    AttemptPending.is_never_attempted = false := by
  decide

theorem never_gossiped : NeverAttemptedGossiped.is_never_attempted = true := rfl

theorem never_alternate : NeverAttemptedAlternate.is_never_attempted = true := rfl

theorem never_responded : Responded.is_never_attempted = false := rfl

theorem never_failed : Failed.is_never_attempted = false := rfl

theorem never_pending : AttemptPending.is_never_attempted = false := rfl

/-- C1: for a change and an optional previous record with matching
endpoints, apply_to_meta_addr returns None exactly when the previous record
is absent and the change is an Update variant, or the previous record is
present in an attempted (not never-attempted) state and the change is a New
variant; in every other case it returns Some record. -/
theorem C1_apply_to_meta_addr_none_iff :
    ∀ (c : MetaAddrChange) (p : Option MetaAddr) (now inst : Nat),
      (∀ q, p = some q → q.addr = c.addr) →
      (c.apply_to_meta_addr p now inst = none ↔
        (p = none ∧ c.is_update_change = true) ∨
        (∃ q, p = some q ∧ q.last_connection_state.is_never_attempted = false ∧
          c.is_new_change = true)) := by
  intro c p now inst _
  cases p with
  | none =>
    cases c <;>
      simp [MetaAddrChange.apply_to_meta_addr, MetaAddrChange.into_new_meta_addr,
        MetaAddrChange.is_update_change, MetaAddrChange.is_new_change]
  | some q =>
    cases c <;> cases hq : q.last_connection_state.is_never_attempted <;>
      simp [MetaAddrChange.apply_to_meta_addr, MetaAddrChange.into_new_meta_addr,
        MetaAddrChange.peer_addr_state, PeerAddrState.is_never_attempted,
        MetaAddrChange.is_update_change, MetaAddrChange.is_new_change, hq]

/-- C1 witness: an UpdateAttempt against no previous record is rejected. -/
theorem C1_apply_to_meta_addr_none_iff_witness :
    (UpdateAttempt ⟨IpAddr.v4 [192, 0, 2, 1], 8233⟩).apply_to_meta_addr none 0 0 =
      none :=
  (C1_apply_to_meta_addr_none_iff (UpdateAttempt ⟨IpAddr.v4 [192, 0, 2, 1], 8233⟩)
      none 0 0 (by intro q h; cases h)).2
    (Or.inl ⟨rfl, rfl⟩)

/-- C2: if a change applies over a previous record satisfying the
never-attempted invariant (never-attempted records carry no local
timestamps), then none of last_response, last_attempt, last_failure moves
backward, in the Option order with None below every Some. -/
theorem C2_apply_to_meta_addr_times_monotone :
    ∀ (now inst : Nat) (c : MetaAddrChange) (p q : MetaAddr),
      p.addr = c.addr →
      (p.last_connection_state.is_never_attempted = true →
        p.last_response = none ∧ p.last_attempt = none ∧ p.last_failure = none) →
      c.apply_to_meta_addr (some p) now inst = some q →
      optLe p.last_response q.last_response = true ∧
      optLe p.last_attempt q.last_attempt = true ∧
      optLe p.last_failure q.last_failure = true := by
  intro now inst c p q _ hinv happ
  cases hna : p.last_connection_state.is_never_attempted with
  | true =>
    obtain ⟨h1, h2, h3⟩ := hinv hna
    cases c <;>
      simp [MetaAddrChange.apply_to_meta_addr, MetaAddrChange.into_new_meta_addr,
        MetaAddrChange.peer_addr_state, never_gossiped, never_alternate,
        never_responded, never_failed, never_pending, hna] at happ <;>
      subst happ <;>
      simp [h1, h2, h3, optLe_optMax, optLe_refl, optMax_none_left,
        MetaAddrChange.last_response, MetaAddrChange.last_attempt,
        MetaAddrChange.last_failure]
  | false =>
    cases c <;>
      simp [MetaAddrChange.apply_to_meta_addr, MetaAddrChange.into_new_meta_addr,
        MetaAddrChange.peer_addr_state, never_gossiped, never_alternate,
        never_responded, never_failed, never_pending, hna] at happ <;>
      subst happ <;>
      simp [optLe_optMax, optLe_refl, optMax_none_left,
        MetaAddrChange.last_response, MetaAddrChange.last_attempt,
        MetaAddrChange.last_failure]

theorem optOr_some (x : Nat) (b : Option Nat) : optOr (some x) b = some x := rfl

theorem optOr_none (b : Option Nat) : optOr none b = b := rfl

/-- C4: a New variant change applied over a matching never-attempted record
yields Some q where q keeps the previous services (the change's unverified
services are not accepted), keeps the previous untrusted last seen when set
and otherwise takes the change's contribution, has no local timestamps, and
takes the change's implied state. -/
theorem C4_apply_new_over_never_attempted :
    ∀ (now inst : Nat) (c : MetaAddrChange) (p q : MetaAddr),
      c.is_new_change = true →
      p.last_connection_state.is_never_attempted = true →
      p.addr = c.addr →
      c.apply_to_meta_addr (some p) now inst = some q →
      q.services = p.services ∧
      (∀ t, p.untrusted_last_seen = some t → q.untrusted_last_seen = some t) ∧
      (p.untrusted_last_seen = none →
        q.untrusted_last_seen = c.untrusted_last_seen now) ∧
      q.last_response = none ∧ q.last_attempt = none ∧ q.last_failure = none ∧
      q.last_connection_state = c.peer_addr_state := by
  intro now inst c p q hnew hna _ happ
  cases c <;> simp [MetaAddrChange.is_new_change] at hnew <;>
    simp [MetaAddrChange.apply_to_meta_addr, MetaAddrChange.into_new_meta_addr,
      MetaAddrChange.peer_addr_state, never_gossiped, never_alternate, hna] at happ <;>
    subst happ <;>
    exact ⟨rfl,
      fun t ht => by simp [ht, optOr, MetaAddrChange.untrusted_last_seen],
      fun h0 => by simp [h0, optOr, MetaAddrChange.untrusted_last_seen],
      rfl, rfl, rfl, rfl⟩

/-- Example endpoint used by the concrete witnesses below. -/
def exAddr : SocketAddr := ⟨IpAddr.v4 [192, 0, 2, 1], 8233⟩

/-- Example fresh gossiped record used by the concrete witnesses below. -/
def exGossiped : MetaAddr :=
  { addr := exAddr, services := 1, untrusted_last_seen := some 500,
    last_response := none, last_attempt := none, last_failure := none,
    last_connection_state := NeverAttemptedGossiped }

/-- Example record after a NewAlternate change over `exGossiped`. -/
def exAlternate : MetaAddr :=
  { exGossiped with last_connection_state := NeverAttemptedAlternate }

/-- C4 witness: a NewAlternate change over a fresh gossiped record keeps the
original services and last-seen claim. -/
theorem C4_apply_new_over_never_attempted_witness :
    exAlternate.services = exGossiped.services ∧
    (∀ t, exGossiped.untrusted_last_seen = some t →
      exAlternate.untrusted_last_seen = some t) ∧
    (exGossiped.untrusted_last_seen = none →
      exAlternate.untrusted_last_seen =
        (NewAlternate exAddr 9).untrusted_last_seen 0) ∧
    exAlternate.last_response = none ∧
    exAlternate.last_attempt = none ∧
    exAlternate.last_failure = none ∧
    exAlternate.last_connection_state = (NewAlternate exAddr 9).peer_addr_state :=
  C4_apply_new_over_never_attempted 0 0 (NewAlternate exAddr 9) exGossiped
    exAlternate (by decide) (by decide) (by decide) (by decide)

/-- Example responded record used by the concrete witnesses below. -/
def exResponded : MetaAddr :=
  { addr := exAddr, services := 1, untrusted_last_seen := some 500,
    last_response := some 7, last_attempt := none, last_failure := none,
    last_connection_state := Responded }

/-- Example record after a later UpdateResponded over `exResponded`. -/
def exResponded9 : MetaAddr := { exResponded with last_response := some 9 }

/-- C2 witness: an UpdateResponded at time 9 over a record that last
responded at time 7 moves no time field backward. -/
theorem C2_apply_to_meta_addr_times_monotone_witness :
    optLe exResponded.last_response exResponded9.last_response = true ∧
    optLe exResponded.last_attempt exResponded9.last_attempt = true ∧
    optLe exResponded.last_failure exResponded9.last_failure = true :=
  C2_apply_to_meta_addr_times_monotone 9 0 (UpdateResponded exAddr 1)
    exResponded exResponded9 (by decide) (by decide) (by decide)

/-- C5: sanitize returns None exactly when the record's last known info is
not valid for outbound (services lacking NODE_NETWORK, unspecified IP, or
port 0) or its effective last-seen is absent; otherwise the sanitized record
has no local timestamps, state NeverAttemptedGossiped, and an untrusted
last-seen equal to the effective last-seen truncated down to a multiple of
1800 seconds. -/
theorem C5_sanitize_shape :
    ∀ r : MetaAddr,
      TIMESTAMP_TRUNCATION_SECONDS = 1800 ∧
      (r.sanitize = none ↔
        (r.services.testBit 0 = false ∨ r.addr.ip.is_unspecified = true ∨
          r.addr.port = 0) ∨ r.last_seen = none) ∧
      (∀ s t, r.sanitize = some s → r.last_seen = some t →
        s.last_response = none ∧ s.last_attempt = none ∧ s.last_failure = none ∧
        s.last_connection_state = NeverAttemptedGossiped ∧
        s.untrusted_last_seen = some (t - t % 1800) ∧
        (t - t % 1800) % 1800 = 0) := by
  intro r
  refine ⟨rfl, ?_, ?_⟩
  · cases hv : r.last_known_info_is_valid_for_outbound with
    | false =>
      simp only [MetaAddr.last_known_info_is_valid_for_outbound,
        MetaAddr.address_is_valid_for_outbound, Bool.and_eq_false_iff,
        Bool.not_eq_true', bne_eq_false_iff_eq] at hv
      constructor
      · intro _
        refine Or.inl ?_
        rcases hv with h | h | h
        · exact Or.inl h
        · exact Or.inr (Or.inl (by simpa using h))
        · exact Or.inr (Or.inr (by simpa using h))
      · intro _
        have hv2 : r.last_known_info_is_valid_for_outbound = false := by
          simp only [MetaAddr.last_known_info_is_valid_for_outbound,
            MetaAddr.address_is_valid_for_outbound, Bool.and_eq_false_iff,
            Bool.not_eq_true', bne_eq_false_iff_eq]
          exact hv
        simp [MetaAddr.sanitize, hv2]
    | true =>
      have hvpieces : r.services.testBit 0 = true ∧
          r.addr.ip.is_unspecified = false ∧ r.addr.port ≠ 0 := by
        simp only [MetaAddr.last_known_info_is_valid_for_outbound,
          MetaAddr.address_is_valid_for_outbound, Bool.and_eq_true,
          Bool.not_eq_eq_eq_not, Bool.not_true, bne_iff_ne] at hv
        exact ⟨hv.1, hv.2.1, hv.2.2⟩
      cases hls : r.last_seen with
      | none => simp [MetaAddr.sanitize, hv, hls, hvpieces.1, hvpieces.2.1, hvpieces.2.2]
      | some t => simp [MetaAddr.sanitize, hv, hls, hvpieces.1, hvpieces.2.1, hvpieces.2.2]
  · intro s t hs hls
    have hv : r.last_known_info_is_valid_for_outbound = true := by
      cases hv : r.last_known_info_is_valid_for_outbound with
      | true => rfl
      | false => simp [MetaAddr.sanitize, hv] at hs
    simp only [MetaAddr.sanitize, hv, Bool.not_true, if_neg, hls,
      Bool.false_eq_true, ite_false, Option.some.injEq] at hs
    subst hs
    have htr : TIMESTAMP_TRUNCATION_SECONDS = 1800 := rfl
    refine ⟨rfl, rfl, rfl, rfl, by rw [htr], ?_⟩
    have hdm := Nat.div_add_mod t 1800
    have : t - t % 1800 = 1800 * (t / 1800) := by omega
    rw [this, Nat.mul_mod_right]

/-- Example record that responded at time 1234567, for the sanitize witness. -/
def exRespondedLate : MetaAddr :=
  { addr := exAddr, services := 1, untrusted_last_seen := some 500,
    last_response := some 1234567, last_attempt := none, last_failure := none,
    last_connection_state := Responded }

/-- Example sanitized form of `exRespondedLate`: the effective last-seen
1234567 truncates down to 1233000. -/
def exSanitized : MetaAddr :=
  { addr := exAddr, services := 1, untrusted_last_seen := some 1233000,
    last_response := none, last_attempt := none, last_failure := none,
    last_connection_state := NeverAttemptedGossiped }

/-- C5 witness: sanitizing a record that responded at time 1234567 clears
the local fields and truncates the time to a multiple of 1800. -/
theorem C5_sanitize_shape_witness :
    exSanitized.last_response = none ∧ exSanitized.last_attempt = none ∧
    exSanitized.last_failure = none ∧
    exSanitized.last_connection_state = NeverAttemptedGossiped ∧
    exSanitized.untrusted_last_seen = some (1234567 - 1234567 % 1800) ∧
    (1234567 - 1234567 % 1800) % 1800 = 0 :=
  (C5_sanitize_shape exRespondedLate).2.2 exSanitized 1234567 (by decide) (by decide)

theorem optMax_left_comm (a b c : Option Nat) :
    optMax a (optMax b c) = optMax b (optMax a c) := by
  cases a <;> cases b <;> cases c <;> simp [optMax] <;> omega

/-- C3 counterexample: change application does not commute on timestamp
fields. Applying NewGossiped then UpdateAttempt (with the same injected
clock readings for both orders) sets last_attempt, while the reverse order
rejects the UpdateAttempt and leaves last_attempt None. -/
theorem C3_apply_not_commutative_counterexample :
    ¬ (((UpdateAttempt exAddr).apply_to_meta_addr
          ((NewGossiped exAddr 1 100).apply_to_meta_addr none 0 5) 0 5).map
        MetaAddr.last_attempt =
      ((NewGossiped exAddr 1 100).apply_to_meta_addr
          ((UpdateAttempt exAddr).apply_to_meta_addr none 0 5) 0 5).map
        MetaAddr.last_attempt) := by
  decide

/-- C3 amended: change application commutes on all four timestamp fields
for Update variant changes (over any optional prior record with matching
endpoints, with the same clock readings for both orders); the general claim
fails for New variants, whose rejection rule and first-observation-wins
merge of untrusted_last_seen are order-dependent. -/
theorem C3_apply_update_changes_commute_on_times :
    ∀ (now inst : Nat) (c c2 : MetaAddrChange) (p : Option MetaAddr),
      c.is_update_change = true → c2.is_update_change = true →
      c.addr = c2.addr →
      (∀ q, p = some q → q.addr = c.addr) →
      ((c2.apply_to_meta_addr (c.apply_to_meta_addr p now inst) now inst).map
        (fun r =>
          (r.untrusted_last_seen, r.last_response, r.last_attempt,
            r.last_failure))) =
      ((c.apply_to_meta_addr (c2.apply_to_meta_addr p now inst) now inst).map
        (fun r =>
          (r.untrusted_last_seen, r.last_response, r.last_attempt,
            r.last_failure))) := by
  intro now inst c c2 p hc hc2 _ _
  cases p with
  | none =>
    cases c <;> simp [MetaAddrChange.is_update_change] at hc <;>
      cases c2 <;> simp [MetaAddrChange.is_update_change] at hc2 <;> rfl
  | some q =>
    cases c <;> simp [MetaAddrChange.is_update_change] at hc <;>
      cases c2 <;> simp [MetaAddrChange.is_update_change] at hc2 <;>
      simp [MetaAddrChange.apply_to_meta_addr, MetaAddrChange.into_new_meta_addr,
        MetaAddrChange.peer_addr_state, MetaAddrChange.last_response,
        MetaAddrChange.last_attempt, MetaAddrChange.last_failure,
        MetaAddrChange.untrusted_last_seen, never_responded, never_failed,
        never_pending, optMax_none_left, optMax_left_comm]

/-- C3 amended witness: UpdateResponded and UpdateFailed over a responded
record agree on all timestamp fields in either order. -/
theorem C3_apply_update_changes_commute_on_times_witness :
    (((UpdateFailed exAddr (some 3)).apply_to_meta_addr
        ((UpdateResponded exAddr 1).apply_to_meta_addr (some exResponded) 9 4)
        9 4).map
      (fun r =>
        (r.untrusted_last_seen, r.last_response, r.last_attempt,
          r.last_failure))) =
    (((UpdateResponded exAddr 1).apply_to_meta_addr
        ((UpdateFailed exAddr (some 3)).apply_to_meta_addr (some exResponded) 9 4)
        9 4).map
      (fun r =>
        (r.untrusted_last_seen, r.last_response, r.last_attempt,
          r.last_failure))) :=
  C3_apply_update_changes_commute_on_times 9 4 (UpdateResponded exAddr 1)
    (UpdateFailed exAddr (some 3)) (some exResponded) (by decide) (by decide)
    (by decide) (by decide)

/-- C9 counterexample: the change projections are not independent of the
ambient clock readings. The source calls `Instant::now()` inside
`MetaAddrChange::last_attempt`; with the reading threaded explicitly, an
UpdateAttempt change observed under two different monotonic readings
produces two different last_attempt contributions. -/
theorem C9_last_attempt_reads_clock_counterexample :
    ¬ (∀ inst inst2 : Nat,
        (UpdateAttempt exAddr).last_attempt inst =
          (UpdateAttempt exAddr).last_attempt inst2) := by
  intro h
  have h01 := h 0 1
  simp [MetaAddrChange.last_attempt] at h01

/-- C9 amended: every operation of the core is a pure function of its
arguments together with the two clock readings taken at invocation; the
readings influence only the timestamp fields, never the endpoint, services,
or connection state of the result, and change application returns Some or
None independently of the readings. -/
theorem C9_apply_clock_dependence_confined :
    ∀ (c : MetaAddrChange) (p : Option MetaAddr) (now inst now2 inst2 : Nat),
      ((c.apply_to_meta_addr p now inst).map
        (fun r => (r.addr, r.services, r.last_connection_state))) =
      ((c.apply_to_meta_addr p now2 inst2).map
        (fun r => (r.addr, r.services, r.last_connection_state))) := by
  intro c p now inst now2 inst2
  cases p with
  | none => cases c <;> rfl
  | some q =>
    cases c <;> cases hq : q.last_connection_state.is_never_attempted <;>
      simp [MetaAddrChange.apply_to_meta_addr, MetaAddrChange.into_new_meta_addr,
        MetaAddrChange.peer_addr_state, never_gossiped, never_alternate,
        never_responded, never_failed, never_pending, hq]

/-- C10: new_gossiped_change panics (modelled as None) exactly when the
record has no untrusted last seen time; otherwise it returns a NewGossiped
change carrying the canonicalized address, the record's services, and the
untrusted last seen time. -/
theorem C10_new_gossiped_change_shape :
    ∀ m : MetaAddr,
      (m.untrusted_last_seen = none → m.new_gossiped_change = none) ∧
      (∀ t, m.untrusted_last_seen = some t →
        m.new_gossiped_change =
          some (NewGossiped (canonical_socket_addr m.addr) m.services t)) := by
  intro m
  constructor
  · intro h
    simp [MetaAddr.new_gossiped_change, h]
  · intro t h
    simp [MetaAddr.new_gossiped_change, h]

/-- C10 witness: a gossiped record with a last seen time yields the
corresponding NewGossiped change. -/
theorem C10_new_gossiped_change_shape_witness :
    exGossiped.new_gossiped_change =
      some (NewGossiped (canonical_socket_addr exGossiped.addr)
        exGossiped.services 500) :=
  (C10_new_gossiped_change_shape exGossiped).2 500 rfl

/-- Well-formedness of an IP: the right octet count for its family, with
every octet a byte. -/
def IpAddr.wf : IpAddr → Bool
  | .v4 o => o.length == 4 && o.all (· < 256)
  | .v6 o => o.length == 16 && o.all (· < 256)

/-- Well-formedness of a record under the source's machine-integer types:
the IP is well formed, the port fits in u16, the services fit in u64, and
the wall-clock timestamps fit in u32. -/
def MetaAddr.wf (m : MetaAddr) : Bool :=
  m.addr.ip.wf && decide (m.addr.port < 2 ^ 16) &&
    decide (m.services < 2 ^ 64) &&
    m.untrusted_last_seen.all (fun t => decide (t < 2 ^ 32)) &&
    m.last_response.all (fun t => decide (t < 2 ^ 32))

theorem leBytes_length (w : Nat) : ∀ n, (leBytes w n).length = w := by
  induction w with
  | zero => intro n; rfl
  | succ w ih => intro n; simp [leBytes, ih]

theorem leDecode_leBytes (w : Nat) : ∀ n, n < 256 ^ w → leDecode (leBytes w n) = n := by
  induction w with
  | zero =>
    intro n h
    simp [Nat.pow_zero] at h
    simp [leBytes, leDecode, h]
  | succ w ih =>
    intro n h
    have hp : 256 ^ (w + 1) = 256 ^ w * 256 := by ring
    rw [hp] at h
    have hd : n / 256 < 256 ^ w := by omega
    simp only [leBytes, leDecode]
    rw [ih (n / 256) hd]
    omega

theorem leBytes_leDecode : ∀ l : List Nat, (∀ b ∈ l, b < 256) →
    leBytes l.length (leDecode l) = l := by
  intro l
  induction l with
  | nil => intro _; rfl
  | cons b rest ih =>
    intro h
    have hb : b < 256 := h b (List.mem_cons_self b rest)
    simp only [List.length_cons, leBytes, leDecode]
    rw [show (b + 256 * leDecode rest) % 256 = b by omega,
      show (b + 256 * leDecode rest) / 256 = leDecode rest by omega,
      ih (fun x hx => h x (List.mem_cons_of_mem b hx))]

theorem leDecode_lt : ∀ l : List Nat, (∀ b ∈ l, b < 256) →
    leDecode l < 256 ^ l.length := by
  intro l
  induction l with
  | nil => intro _; simp [leDecode]
  | cons b rest ih =>
    intro h
    have hb : b < 256 := h b (List.mem_cons_self b rest)
    have hr := ih (fun x hx => h x (List.mem_cons_of_mem b hx))
    simp only [leDecode, List.length_cons]
    have hp : 256 ^ (rest.length + 1) = 256 ^ rest.length * 256 := by ring
    omega

theorem beDecode_beBytes (p : Nat) (h : p < 2 ^ 16) : beDecode (beBytes 2 p) = p := by
  show beDecode [p / 256 % 256, p % 256] = p
  simp only [beDecode, List.foldl]
  omega

theorem canonicalIp_idem (ip : IpAddr) : canonicalIp (canonicalIp ip) = canonicalIp ip := by
  cases ip with
  | v4 o => rfl
  | v6 o =>
    by_cases h : o.take 12 = v4MappedPrefix
    · simp [canonicalIp, h]
    · simp [canonicalIp, h]

theorem canonicalIp_wf (ip : IpAddr) (h : ip.wf = true) : (canonicalIp ip).wf = true := by
  cases ip with
  | v4 o => exact h
  | v6 o =>
    by_cases hm : o.take 12 = v4MappedPrefix
    · simp only [canonicalIp, hm, if_pos]
      simp only [IpAddr.wf, Bool.and_eq_true, beq_iff_eq, List.all_eq_true] at h ⊢
      refine ⟨by rw [List.length_drop, h.1], fun x hx => h.2 x (List.drop_subset 12 o hx)⟩
    · simp only [canonicalIp, hm, if_neg, ite_false]
      exact h

theorem ipWireBytes_length (ip : IpAddr) (h : ip.wf = true) :
    (ipWireBytes ip).length = 16 := by
  cases ip with
  | v4 o =>
    simp only [IpAddr.wf, Bool.and_eq_true, beq_iff_eq] at h
    simp [ipWireBytes, v4MappedPrefix, h.1]
  | v6 o =>
    simp only [IpAddr.wf, Bool.and_eq_true, beq_iff_eq] at h
    simpa [ipWireBytes] using h.1

theorem canonical_wire_round (ip : IpAddr) :
    canonicalIp (IpAddr.v6 (ipWireBytes (canonicalIp ip))) = canonicalIp ip := by
  cases h : canonicalIp ip with
  | v4 o =>
    have h1 : (v4MappedPrefix ++ o).take 12 = v4MappedPrefix :=
      List.take_left' (by decide)
    have h2 : (v4MappedPrefix ++ o).drop 12 = o := List.drop_left' (by decide)
    simp [ipWireBytes, canonicalIp, h1, h2]
  | v6 o =>
    have hi := canonicalIp_idem ip
    rw [h] at hi
    simpa [ipWireBytes] using hi

theorem new_gossiped_round_trip (a : SocketAddr) (sv T : Nat)
    (hip : (canonicalIp a.ip).wf = true) (hport : a.port < 2 ^ 16)
    (hsv : sv < 2 ^ 64) (hT : T < 2 ^ 32) :
    (MetaAddr.new_gossiped_meta_addr a sv T).zcash_serialize.bind
      MetaAddr.zcash_deserialize =
      some (MetaAddr.new_gossiped_meta_addr a sv T) := by
  have hser : (MetaAddr.new_gossiped_meta_addr a sv T).zcash_serialize =
      some (leBytes 4 T ++ leBytes 8 sv ++ ipWireBytes (canonicalIp a.ip) ++
        beBytes 2 a.port) := rfl
  rw [hser]
  show MetaAddr.zcash_deserialize
      (leBytes 4 T ++ leBytes 8 sv ++ ipWireBytes (canonicalIp a.ip) ++
        beBytes 2 a.port) =
    some (MetaAddr.new_gossiped_meta_addr a sv T)
  set A1 := leBytes 4 T with hA1def
  set A2 := leBytes 8 sv with hA2def
  set A3 := ipWireBytes (canonicalIp a.ip) with hA3def
  set A4 := beBytes 2 a.port with hA4def
  have hL1 : A1.length = 4 := leBytes_length 4 T
  have hL2 : A2.length = 8 := leBytes_length 8 sv
  have hL3 : A3.length = 16 := ipWireBytes_length _ hip
  have hL4 : A4.length = 2 := by
    rw [hA4def]
    simp [beBytes, leBytes_length]
  have hassoc : A1 ++ A2 ++ A3 ++ A4 = A1 ++ (A2 ++ (A3 ++ A4)) := by
    simp [List.append_assoc]
  have htake4 : (A1 ++ A2 ++ A3 ++ A4).take 4 = A1 := by
    rw [hassoc]
    exact List.take_left' hL1
  have hdrop4 : (A1 ++ A2 ++ A3 ++ A4).drop 4 = A2 ++ (A3 ++ A4) := by
    rw [hassoc]
    exact List.drop_left' hL1
  have htake8 : (A2 ++ (A3 ++ A4)).take 8 = A2 := List.take_left' hL2
  have hdrop12 : (A1 ++ A2 ++ A3 ++ A4).drop 12 = A3 ++ A4 := by
    have h12 : (12 : Nat) = 4 + 8 := rfl
    rw [h12, ← List.drop_drop, hdrop4]
    exact List.drop_left' hL2
  have htake16 : (A3 ++ A4).take 16 = A3 := List.take_left' hL3
  have hdrop28 : (A1 ++ A2 ++ A3 ++ A4).drop 28 = A4 := by
    have h28 : (28 : Nat) = 12 + 16 := rfl
    rw [h28, ← List.drop_drop, hdrop12]
    exact List.drop_left' hL3
  have htake2 : A4.take 2 = A4 := by
    rw [← hL4]
    exact List.take_length A4
  have hlen : (A1 ++ A2 ++ A3 ++ A4).length = 30 := by
    simp [List.length_append, hL1, hL2, hL3, hL4]
  have hTdec : leDecode A1 = T := by
    rw [hA1def]
    refine leDecode_leBytes 4 T ?_
    have he : (256 : Nat) ^ 4 = 2 ^ 32 := by norm_num
    omega
  have hsvdec : leDecode A2 = sv := by
    rw [hA2def]
    refine leDecode_leBytes 8 sv ?_
    have he : (256 : Nat) ^ 8 = 2 ^ 64 := by norm_num
    omega
  have hportdec : beDecode A4 = a.port := beDecode_beBytes a.port hport
  rw [MetaAddr.zcash_deserialize]
  rw [if_neg (by omega)]
  rw [htake4, hdrop4, htake8, hdrop12, htake16, hdrop28, htake2]
  rw [hTdec, hsvdec, hportdec]
  have hsvtr : from_bits_truncate sv = sv := Nat.mod_eq_of_lt hsv
  rw [hsvtr]
  simp only [MetaAddr.new_gossiped_meta_addr, canonical_socket_addr,
    Option.some.injEq]
  rw [hA3def]
  rw [canonical_wire_round a.ip]

/-- C7: for a well-formed record whose sanitized form exists, deserializing
the serialization of the sanitized form succeeds and reproduces it exactly
(same canonical endpoint, services, and truncated untrusted last-seen; no
local timestamps; state NeverAttemptedGossiped). -/
theorem C7_sanitize_serialize_round_trip :
    ∀ (r s : MetaAddr), r.wf = true → r.sanitize = some s →
      s.zcash_serialize.bind MetaAddr.zcash_deserialize = some s := by
  intro r s hwf hs
  simp only [MetaAddr.wf, Bool.and_eq_true, decide_eq_true_eq] at hwf
  obtain ⟨⟨⟨⟨hip, hport⟩, hsv⟩, hunt⟩, hresp⟩ := hwf
  have hv : r.last_known_info_is_valid_for_outbound = true := by
    cases hv : r.last_known_info_is_valid_for_outbound with
    | true => rfl
    | false => simp [MetaAddr.sanitize, hv] at hs
  cases hls : r.last_seen with
  | none => simp [MetaAddr.sanitize, hv, hls] at hs
  | some t =>
    simp only [MetaAddr.sanitize, hv, Bool.not_true, Bool.false_eq_true,
      ite_false, hls, Option.some.injEq] at hs
    have ht32 : t < 2 ^ 32 := by
      have hlsdef : optOr r.last_response r.untrusted_last_seen = some t := hls
      cases hr : r.last_response with
      | some x =>
        rw [hr, optOr_some] at hlsdef
        injection hlsdef with hx
        subst hx
        rw [hr] at hresp
        simpa using hresp
      | none =>
        rw [hr, optOr_none] at hlsdef
        rw [hlsdef] at hunt
        simpa using hunt
    have hT : t - t % TIMESTAMP_TRUNCATION_SECONDS < 2 ^ 32 := by omega
    subst hs
    exact new_gossiped_round_trip r.addr r.services
      (t - t % TIMESTAMP_TRUNCATION_SECONDS) (canonicalIp_wf r.addr.ip hip)
      hport hsv hT

/-- C7 witness: the sanitized form of the example responded record survives
a serialization round trip unchanged. -/
theorem C7_sanitize_serialize_round_trip_witness :
    exSanitized.zcash_serialize.bind MetaAddr.zcash_deserialize =
      some exSanitized :=
  C7_sanitize_serialize_round_trip exRespondedLate exSanitized (by decide)
    (by decide)

/-- C8: deserializing any 30-byte wire encoding succeeds and preserves the
64-bit services field verbatim — the decoded services equal the unsigned
little-endian value of bytes 4..12, and re-serializing the decoded record
reproduces those same eight bytes. -/
theorem C8_deserialize_preserves_services :
    ∀ bytes : List Nat, bytes.length = 30 → (∀ b ∈ bytes, b < 256) →
      ((MetaAddr.zcash_deserialize bytes).map MetaAddr.services) =
        some (leDecode ((bytes.drop 4).take 8)) ∧
      (((MetaAddr.zcash_deserialize bytes).bind MetaAddr.zcash_serialize).map
        (fun out => (out.drop 4).take 8)) = some ((bytes.drop 4).take 8) := by
  intro bytes hlen hlt
  have h8len : ((bytes.drop 4).take 8).length = 8 := by
    rw [List.length_take, List.length_drop, hlen]
    decide
  have h8lt : ∀ b ∈ (bytes.drop 4).take 8, b < 256 := fun b hb =>
    hlt b (List.drop_subset 4 bytes (List.take_subset 8 (bytes.drop 4) hb))
  have hdes : MetaAddr.zcash_deserialize bytes =
      some (MetaAddr.new_gossiped_meta_addr
        ⟨IpAddr.v6 ((bytes.drop 12).take 16), beDecode ((bytes.drop 28).take 2)⟩
        (from_bits_truncate (leDecode ((bytes.drop 4).take 8)))
        (leDecode (bytes.take 4))) := by
    rw [MetaAddr.zcash_deserialize, if_neg (by omega)]
  have hdec64 : leDecode ((bytes.drop 4).take 8) < 2 ^ 64 := by
    have hd := leDecode_lt _ h8lt
    rw [h8len] at hd
    have he : (256 : Nat) ^ 8 = 2 ^ 64 := by norm_num
    omega
  have htr : from_bits_truncate (leDecode ((bytes.drop 4).take 8)) =
      leDecode ((bytes.drop 4).take 8) := Nat.mod_eq_of_lt hdec64
  constructor
  · rw [hdes]
    simp [MetaAddr.new_gossiped_meta_addr, htr]
  · rw [hdes, Option.some_bind]
    have hser : (MetaAddr.new_gossiped_meta_addr
        ⟨IpAddr.v6 ((bytes.drop 12).take 16), beDecode ((bytes.drop 28).take 2)⟩
        (from_bits_truncate (leDecode ((bytes.drop 4).take 8)))
        (leDecode (bytes.take 4))).zcash_serialize =
        some (leBytes 4 (leDecode (bytes.take 4)) ++
          leBytes 8 (from_bits_truncate (leDecode ((bytes.drop 4).take 8))) ++
          ipWireBytes (canonicalIp (IpAddr.v6 ((bytes.drop 12).take 16))) ++
          beBytes 2 (beDecode ((bytes.drop 28).take 2))) := rfl
    rw [hser, Option.map_some']
    have hassoc : leBytes 4 (leDecode (bytes.take 4)) ++
        leBytes 8 (from_bits_truncate (leDecode ((bytes.drop 4).take 8))) ++
        ipWireBytes (canonicalIp (IpAddr.v6 ((bytes.drop 12).take 16))) ++
        beBytes 2 (beDecode ((bytes.drop 28).take 2)) =
        leBytes 4 (leDecode (bytes.take 4)) ++
          (leBytes 8 (from_bits_truncate (leDecode ((bytes.drop 4).take 8))) ++
            (ipWireBytes (canonicalIp (IpAddr.v6 ((bytes.drop 12).take 16))) ++
              beBytes 2 (beDecode ((bytes.drop 28).take 2)))) := by
      simp [List.append_assoc]
    rw [hassoc, List.drop_left' (leBytes_length 4 _),
      List.take_left' (leBytes_length 8 _), htr]
    have hfin := leBytes_leDecode _ h8lt
    rw [h8len] at hfin
    exact congrArg some hfin

/-- Example 30-byte wire encoding: time 4096, services NODE_NETWORK,
v4-mapped IP 192.0.2.1, port 8233. -/
def exWireBytes : List Nat :=
  [0, 16, 0, 0, 1, 0, 0, 0, 0, 0, 0, 0,
   0, 0, 0, 0, 0, 0, 0, 0, 0, 0, 255, 255, 192, 0, 2, 1, 32, 41]

/-- C8 witness: the example wire bytes decode to services 1, and
re-serializing reproduces the eight service bytes. -/
theorem C8_deserialize_preserves_services_witness :
    ((MetaAddr.zcash_deserialize exWireBytes).map MetaAddr.services) =
      some (leDecode ((exWireBytes.drop 4).take 8)) ∧
    (((MetaAddr.zcash_deserialize exWireBytes).bind MetaAddr.zcash_serialize).map
      (fun out => (out.drop 4).take 8)) = some ((exWireBytes.drop 4).take 8) :=
  C8_deserialize_preserves_services exWireBytes (by decide) (by decide)
